import Mathlib

/-!
Verification of the R2R dashboard's client-side core against its sources.

The development shallowly embeds the two pieces of the repository with
actual logic:

* the log table's client-side query engine
  (`src/web/src/components/Layout/index.tsx`, component `Retrieval`):
  category exclusion, pagination slicing, sorting, and text filtering of
  pipeline-run records;
* the deploy form's validation/submission flow (`handleSubmit` in the
  deploy page) and the pipeline store's `updatePipelines`.

JavaScript dynamic values are modelled by `JsValue`; JS numbers are
modelled by exact rationals (`ℚ`) plus an explicit `nan` constructor
(infinities are not modelled, none of the verified properties involve
them).  Operations that can raise a JS `TypeError` (such as calling
`toString` on `null`) return `Except JsError`.
-/

namespace R2R

/-- A JavaScript runtime value, as far as the log-table code observes it:
strings, numbers (exact rationals; `nan` is separate, infinities are not
modelled), `null`, `undefined`, and non-null objects abstracted by the
string their `toString` produces. -/
inductive JsValue where
  | str (s : String)
  | num (q : ℚ)
  | nan
  | null
  | undefined
  | obj (s : String)
deriving DecidableEq, Repr

/-- JS whitespace accepted by `parseFloat` / `ToNumber` (ASCII subset). -/
def isJsWs (c : Char) : Bool := c = ' ' || c = '\t' || c = '\n' || c = '\r'

/-- Decimal digit test. -/
def isDig (c : Char) : Bool := ('0').toNat ≤ c.toNat && c.toNat ≤ ('9').toNat

/-- Numeric value of a decimal digit character. -/
def digVal (c : Char) : ℕ := c.toNat - ('0').toNat

/-- Value of a big-endian list of decimal digit characters. -/
def natOfDigits (ds : List Char) : ℕ := ds.foldl (fun n c => 10 * n + digVal c) 0

/-- Split a character list into its leading run of decimal digits and the rest. -/
def splitDigits (cs : List Char) : List Char × List Char :=
  (cs.takeWhile isDig, cs.dropWhile isDig)

/-- Parse a JS `StrDecimalLiteral` prefix (optional sign, integer part,
optional fraction, optional exponent) from a character list, returning the
exact rational value and the unconsumed rest.  Returns `none` when no digit
is found.  `Infinity` literals and non-decimal (hex/octal/binary) literals
are not modelled. -/
def parseDec (cs : List Char) : Option (ℚ × List Char) :=
  let signSplit : Bool × List Char :=
    match cs with
    | '-' :: t => (true, t)
    | '+' :: t => (false, t)
    | _ => (false, cs)
  let neg := signSplit.1
  let (ip, cs2) := splitDigits signSplit.2
  let fracSplit : List Char × List Char :=
    match cs2 with
    | '.' :: t => splitDigits t
    | _ => ([], cs2)
  let fp := fracSplit.1
  let cs3 := fracSplit.2
  if ip.isEmpty && fp.isEmpty then none else
  let mantNum : ℤ := (natOfDigits ip : ℤ) * 10 ^ fp.length + (natOfDigits fp : ℤ)
  let expSplit : ℤ × List Char :=
    match cs3 with
    | e :: t =>
      if e = 'e' || e = 'E' then
        let esignSplit : Bool × List Char :=
          match t with
          | '-' :: u => (true, u)
          | '+' :: u => (false, u)
          | _ => (false, t)
        let (eds, t2) := splitDigits esignSplit.2
        if eds.isEmpty then (0, cs3)
        else (if esignSplit.1 then -(natOfDigits eds : ℤ) else (natOfDigits eds : ℤ), t2)
      else (0, cs3)
    | [] => (0, cs3)
  let scale : ℤ := expSplit.1 - fp.length
  let mag : ℚ :=
    if 0 ≤ scale then mkRat (mantNum * 10 ^ scale.toNat) 1
    else mkRat mantNum (10 ^ (-scale).toNat)
  some (if neg then -mag else mag, expSplit.2)

/-- Model of the JS builtin `parseFloat` on a string: skip leading
whitespace, then read the longest decimal-literal prefix; `NaN` when none
exists. -/
def parseFloatStr (s : String) : JsValue :=
  match parseDec (s.toList.dropWhile isJsWs) with
  | some (q, _) => .num q
  | none => .nan

/-- Model of `parseFloat` applied to an arbitrary value: JS first converts
the argument to a string.  For numbers this round-trips; `null`, `undefined`
and `NaN` stringify to words that parse to `NaN`; objects are parsed from
their string form. -/
def jsParseFloat : JsValue → JsValue
  | .str s => parseFloatStr s
  | .num q => .num q
  | .nan => .nan
  | .null => .nan
  | .undefined => .nan
  | .obj s => parseFloatStr s

/-- String case of the JS `ToNumber` coercion: after trimming whitespace an
empty string is `0`, a complete decimal literal is its value, anything else
is `NaN`. -/
def jsToNumberStr (s : String) : JsValue :=
  let t := ((s.toList.dropWhile isJsWs).reverse.dropWhile isJsWs).reverse
  if t.isEmpty then .num (mkRat 0 1)
  else
    match parseDec t with
    | some (q, []) => .num q
    | _ => .nan

/-- Model of the JS `ToNumber` coercion used by the relational operators:
numbers are kept, `null` is `0`, `undefined` is `NaN`, and a string must be
(after trimming whitespace) empty (then `0`) or a complete decimal literal,
otherwise `NaN`. -/
def jsToNumber : JsValue → JsValue
  | .num q => .num q
  | .nan => .nan
  | .null => .num (mkRat 0 1)
  | .undefined => .nan
  | .str s => jsToNumberStr s
  | .obj s => jsToNumberStr s

/-- Strict character comparison by code point. -/
def charLt (a b : Char) : Bool := a.toNat < b.toNat

/-- Lexicographic strict order on character lists (JS string `<`). -/
def strLtL : List Char → List Char → Bool
  | [], [] => false
  | [], _ :: _ => true
  | _ :: _, [] => false
  | a :: as, b :: bs => charLt a b || (a = b && strLtL as bs)

/-- JS string comparison `s < t` (code-unit lexicographic). -/
def strLt (s t : String) : Bool := strLtL s.toList t.toList

/-- `ToPrimitive` with number hint: plain objects and arrays fall back to
their `toString`; primitives are unchanged. -/
def jsToPrimitive : JsValue → JsValue
  | .obj s => .str s
  | v => v

/-- Model of the JS abstract relational comparison `a < b`: after
`ToPrimitive`, two strings compare lexicographically, otherwise both sides
are coerced with `ToNumber` and compared numerically; any comparison
involving `NaN` is `false`. -/
def jsLt (a b : JsValue) : Bool :=
  match jsToPrimitive a, jsToPrimitive b with
  | .str s, .str t => strLt s t
  | pa, pb =>
    match jsToNumber pa, jsToNumber pb with
    | .num p, .num q => decide (p < q)
    | _, _ => false

/-- One pipeline-run record as consumed by the `Retrieval` table.  Each
field holds the raw JS value received from the backend; `objectValues`
lists them in property order. -/
structure LogRecord where
  timestamp : JsValue
  pipelineRunId : JsValue
  pipelineRunType : JsValue
  method : JsValue
  searchQuery : JsValue
  searchResults : JsValue
  completionResult : JsValue
  outcome : JsValue
  score : JsValue
  evalResults : JsValue
deriving DecidableEq, Repr

/-- `Object.values(log)`: the record's field values in property order. -/
def objectValues (r : LogRecord) : List JsValue :=
  [r.timestamp, r.pipelineRunId, r.pipelineRunType, r.method, r.searchQuery,
   r.searchResults, r.completionResult, r.outcome, r.score, r.evalResults]

/-- Dynamic property access `log[sortField]`; an unknown field name (such as
the table's `event` column) yields `undefined`. -/
def sortFieldValue (f : String) (r : LogRecord) : JsValue :=
  if f = "timestamp" then r.timestamp
  else if f = "pipelineRunId" then r.pipelineRunId
  else if f = "pipelineRunType" then r.pipelineRunType
  else if f = "method" then r.method
  else if f = "searchQuery" then r.searchQuery
  else if f = "searchResults" then r.searchResults
  else if f = "completionResult" then r.completionResult
  else if f = "outcome" then r.outcome
  else if f = "score" then r.score
  else if f = "evalResults" then r.evalResults
  else .undefined

/-- The two sort directions offered by the table header. -/
inductive SortDirection where
  | asc
  | desc
deriving DecidableEq, Repr

/-- The comparator passed to `Array.prototype.sort` in `sortedItems`:
`valueA`/`valueB` are `a[sortField]`/`b[sortField]`, replaced by
`parseFloat(a.score)`/`parseFloat(b.score)` when the sort field is
`score`; it returns `-1`/`1`/`0` from JS `<` / `>` comparisons, with the
signs swapped for descending order. -/
def cmpLogs (sortField : String) (d : SortDirection) (a b : LogRecord) : ℤ :=
  let valueA := if sortField = "score" then jsParseFloat a.score else sortFieldValue sortField a
  let valueB := if sortField = "score" then jsParseFloat b.score else sortFieldValue sortField b
  if jsLt valueA valueB then (if d = .asc then -1 else 1)
  else if jsLt valueB valueA then (if d = .asc then 1 else -1)
  else 0

/-- The non-strict comparison a stable JS sort realises: `a` may stay
before `b` exactly when the comparator does not order `b` strictly
first. -/
def jsSortLe (sortField : String) (d : SortDirection) (a b : LogRecord) : Bool :=
  decide (cmpLogs sortField d a b ≤ 0)

/-- `Array.prototype.sort` with the table's comparator, modelled as a
stable merge sort (the ECMAScript spec requires a stable sort; for a
consistent comparator the stable sorted permutation is unique). -/
def sortRuns (sortField : String) (d : SortDirection) (l : List LogRecord) : List LogRecord :=
  l.mergeSort (jsSortLe sortField d)

/-- `itemsPerPage` constant of the `Retrieval` component. -/
def itemsPerPage : ℕ := 10

/-- The category exclusion `log.pipelineRunType !== 'embedding'`. -/
def notEmbedding (r : LogRecord) : Bool :=
  decide (r.pipelineRunType ≠ .str ("embedding"))

/-- `filteredLogs`: the record snapshot with `embedding` runs dropped;
its length is the `totalItems` handed to the pagination control. -/
def filteredLogs (logs : List LogRecord) : List LogRecord :=
  logs.filter notEmbedding

/-- `Array.prototype.slice(start, stop)` for in-range indices. -/
def jsSlice (start stop : ℕ) (l : List α) : List α :=
  (l.drop start).take (stop - start)

/-- `currentItems`: the category-filtered snapshot cut down to the current
page window of `itemsPerPage` records. -/
def currentItems (logs : List LogRecord) (currentPage : ℕ) : List LogRecord :=
  let indexOfLastItem := currentPage * itemsPerPage
  let indexOfFirstItem := indexOfLastItem - itemsPerPage
  jsSlice indexOfFirstItem indexOfLastItem (logs.filter notEmbedding)

/-- `sortedItems`: the page window sorted by the selected field, or the
window unchanged when the sort field is absent (`null` or the falsy empty
string). -/
def sortedItems (logs : List LogRecord) (currentPage : ℕ)
    (sortField : Option String) (d : SortDirection) : List LogRecord :=
  match sortField with
  | none => currentItems logs currentPage
  | some f =>
    if f = "" then currentItems logs currentPage
    else sortRuns f d (currentItems logs currentPage)

/-- The JS exception a field access or method call can raise in the filter
predicate. -/
inductive JsError where
  | typeError
deriving DecidableEq, Repr

/-- Decidable equality for `Except` results, so that concrete runs of the
fallible operations can be checked by `decide`. -/
instance {ε α : Type} [DecidableEq ε] [DecidableEq α] : DecidableEq (Except ε α) := fun a b =>
  match a, b with
  | .ok x, .ok y => if h : x = y then .isTrue (by simp [h]) else .isFalse (by simp [h])
  | .error x, .error y => if h : x = y then .isTrue (by simp [h]) else .isFalse (by simp [h])
  | .ok _, .error _ => .isFalse (by simp)
  | .error _, .ok _ => .isFalse (by simp)

/-- `value.toString()`: raises a `TypeError` on `null` and `undefined`.
Integers stringify exactly; non-integral rationals use an injective
placeholder rendering (no verified property depends on it). -/
def jsToString : JsValue → Except JsError String
  | .str s => .ok s
  | .num q => .ok (if q.den = 1 then toString q.num else toString q.num ++ ("/") ++ toString q.den)
  | .nan => .ok ("NaN")
  | .null => .error .typeError
  | .undefined => .error .typeError
  | .obj s => .ok s

/-- ASCII case lowering of one character (JS `toLowerCase`, ASCII range). -/
def charLower (c : Char) : Char :=
  if ('A').toNat ≤ c.toNat && c.toNat ≤ ('Z').toNat then Char.ofNat (c.toNat + 32) else c

/-- Lower-case a character list. -/
def lowerChars (cs : List Char) : List Char := cs.map charLower

/-- `hay.includes(needle)`: substring containment. -/
def listContains (needle : List Char) : List Char → Bool
  | [] => needle.isEmpty
  | c :: rest => needle.isPrefixOf (c :: rest) || listContains needle rest

/-- One conjunct of the filter predicate:
`value.toString().toLowerCase().includes(filterQuery.toLowerCase())`. -/
def fieldMatches (filterQuery : String) (v : JsValue) : Except JsError Bool :=
  match jsToString v with
  | .error e => .error e
  | .ok s => .ok (listContains (lowerChars filterQuery.toList) (lowerChars s.toList))

/-- `Object.values(item).some(...)`: left-to-right, short-circuiting on the
first match, propagating the first raised `TypeError`. -/
def someMatches (filterQuery : String) : List JsValue → Except JsError Bool
  | [] => .ok false
  | v :: vs =>
    match fieldMatches filterQuery v with
    | .error e => .error e
    | .ok true => .ok true
    | .ok false => someMatches filterQuery vs

/-- The filter predicate applied to one record. -/
def keepsRecord (filterQuery : String) (r : LogRecord) : Except JsError Bool :=
  someMatches filterQuery (objectValues r)

/-- `Array.prototype.filter` with a predicate that can raise: elements are
tested left to right and the first raised error aborts the whole filter. -/
def filterE (p : α → Except ε Bool) : List α → Except ε (List α)
  | [] => .ok []
  | x :: xs =>
    match p x with
    | .error e => .error e
    | .ok b =>
      match filterE p xs with
      | .error e => .error e
      | .ok rest => .ok (if b then x :: rest else rest)

/-- `filteredAndSortedItems`: the rendered rows — the sorted page window
narrowed by the text filter. -/
def filteredAndSortedItems (logs : List LogRecord) (currentPage : ℕ)
    (sortField : Option String) (d : SortDirection) (filterQuery : String) :
    Except JsError (List LogRecord) :=
  filterE (keepsRecord filterQuery) (sortedItems logs currentPage sortField d)

/-- The `totalItems` value given to the `Pagination` control:
`filteredLogs.length`. -/
def totalItems (logs : List LogRecord) : ℕ := (filteredLogs logs).length

/-- Convenience constructor: a record all of whose fields are strings, as
delivered by the backend for a fully populated run. -/
def strRec (ts id ty mth q sr cr out sc ev : String) : LogRecord :=
  ⟨.str ts, .str id, .str ty, .str mth, .str q, .str sr, .str cr, .str out, .str sc, .str ev⟩

/-- A concrete search run with score `"9"`. -/
def sampleSearch9 : LogRecord :=
  strRec ("t1") ("id1") ("search") ("Search") ("qa") ("ra") ("ca") ("success") ("9") ("ea")

/-- A concrete search run with score `"10"`. -/
def sampleSearch10 : LogRecord :=
  strRec ("t2") ("id2") ("search") ("Search") ("qb") ("rb") ("cb") ("success") ("10") ("eb")

/-- A second concrete run with score `"9"`, distinct from `sampleSearch9`,
for exercising ties. -/
def sampleSearch9b : LogRecord :=
  strRec ("t9") ("id9") ("search") ("Search") ("qd") ("rd") ("cd") ("success") ("9") ("ed")

/-- A concrete embedding run (excluded from the Retrieval view). -/
def sampleEmbedding : LogRecord :=
  strRec ("t3") ("id3") ("embedding") ("Embedding") ("qc") ("rc") ("cc") ("success") ("1") ("ec")

/-- A record whose `searchQuery` is `null` while every earlier field is a
string that does not contain `"zzz"`. -/
def nullFieldRecord : LogRecord :=
  ⟨.str ("t4"), .str ("id4"), .str ("search"), .str ("Search"), .null,
   .str ("rd"), .str ("cd"), .str ("success"), .str ("1"), .str ("ed")⟩

/-- Runs with scores `"5"`, `"x"` (which parses to `NaN`) and `"3"`, used to
exhibit the sort's behaviour under an inconsistent comparator. -/
def cexScore5 : LogRecord :=
  strRec ("t5") ("id5") ("search") ("Search") ("q5") ("r5") ("c5") ("success") ("5") ("e5")

/-- Score `"x"`: `parseFloat` yields `NaN`, so this record compares equal
(comparator result `0`) with every other record under the `score` sort. -/
def cexScoreNaN : LogRecord :=
  strRec ("t6") ("id6") ("search") ("Search") ("q6") ("r6") ("c6") ("success") ("x") ("e6")

/-- Score `"3"`. -/
def cexScore3 : LogRecord :=
  strRec ("t7") ("id7") ("search") ("Search") ("q7") ("r7") ("c7") ("success") ("3") ("e7")

/-- A globally transitive and total comparison on records by parsed score
(records whose score does not parse sort first).  On lists all of whose
scores parse it coincides with the engine's ascending score comparison; it
witnesses that such lists are sorted with a consistent comparator. -/
def scoreKeyLe (a b : LogRecord) : Bool :=
  match jsParseFloat a.score, jsParseFloat b.score with
  | .num p, .num q => decide (p ≤ q)
  | .num _, _ => false
  | _, _ => true

/-- Whether a fallible computation completed without raising. -/
def isOkE {ε α : Type} : Except ε α → Bool
  | .ok _ => true
  | .error _ => false

/-! ### Deploy form controller -/

/-- One user-entered secret key/value pair of the deploy form. -/
structure SecretPair where
  key : String
  value : String
deriving DecidableEq, Repr

/-- The deploy form's component state at submission time. -/
structure DeployFormState where
  pipelineName : String
  githubUrl : String
  secretPairs : List SecretPair
  isLoading : Bool
deriving DecidableEq, Repr

/-- Resolution of the `fetch` to the `/deploy` endpoint: a response with
`response.ok` true, a response with `response.ok` false (any non-2xx
status), or the promise rejecting (network failure). -/
inductive FetchOutcome where
  | success
  | httpFailure
  | thrown
deriving DecidableEq, Repr

/-- Everything externally observable about one `handleSubmit` run:
the `alert` messages shown to the user, the `console.error` lines, how
many requests were issued to the `/deploy` endpoint, the form state when
the handler settles, and whether a delayed reset-and-navigate-home was
scheduled. -/
structure SubmitResult where
  alerts : List String
  consoleErrors : List String
  deployRequests : ℕ
  state : DeployFormState
  resetScheduled : Bool
deriving DecidableEq, Repr

/-- The loop over `secretPairs` rejects a pair with an empty key or empty
value. -/
def incompletePair (p : SecretPair) : Bool :=
  decide (p.key = "") || decide (p.value = "")

/-- The deploy page's `handleSubmit`, as a function of the session token
(`none` when no session is available), the form state, and how the deploy
request would resolve.  Mirrors the source order: token check, pipeline
name, GitHub URL, secret pairs, then the request; on success the field
reset and navigation only happen in a later `setTimeout` callback, so the
settled state still has `isLoading` set. -/
def handleSubmit (token : Option String) (st : DeployFormState)
    (outcome : FetchOutcome) : SubmitResult :=
  match token with
  | none =>
    { alerts := [], consoleErrors := [("Access token not found")],
      deployRequests := 0, state := st, resetScheduled := false }
  | some _ =>
    if st.pipelineName = "" then
      { alerts := [("Please enter a pipeline name")], consoleErrors := [],
        deployRequests := 0, state := st, resetScheduled := false }
    else if st.githubUrl = "" then
      { alerts := [("Please enter a GitHub URL")], consoleErrors := [],
        deployRequests := 0, state := st, resetScheduled := false }
    else if st.secretPairs.any incompletePair then
      { alerts := [("Please enter a secret key and value")], consoleErrors := [],
        deployRequests := 0, state := st, resetScheduled := false }
    else
      match outcome with
      | .success =>
        { alerts := [], consoleErrors := [],
          deployRequests := 1, state := { st with isLoading := true },
          resetScheduled := true }
      | .httpFailure =>
        { alerts := [("Failed to create the pipeline. Please try again.")],
          consoleErrors := [("Pipeline creation failed")],
          deployRequests := 1, state := { st with isLoading := false },
          resetScheduled := false }
      | .thrown =>
        { alerts := [("An error occurred while creating the pipeline. Please try again.")],
          consoleErrors := [("Error creating pipeline:")],
          deployRequests := 1, state := { st with isLoading := false },
          resetScheduled := false }

/-- A form submission with an empty pipeline name but every other field
valid. -/
def emptyNameForm : DeployFormState :=
  { pipelineName := "", githubUrl := ("https://github.com/SciPhi-AI/R2R-basic-rag-template"),
    secretPairs := [{ key := ("OPENAI_API_KEY"), value := ("sk-1") }], isLoading := false }

/-- A fully valid form submission. -/
def validForm : DeployFormState :=
  { pipelineName := ("Basic RAG"), githubUrl := ("https://github.com/SciPhi-AI/R2R-basic-rag-template"),
    secretPairs := [{ key := ("OPENAI_API_KEY"), value := ("sk-1") }], isLoading := false }

/-! ### Pipeline store -/

/-- The pipeline store's `updatePipelines`: functional update of the
`pipelines` record (`{...prevPipelines, [pipelineId]: pipeline}`), with the
JS string-keyed object modelled as a partial map. -/
def updatePipelines {Pipeline : Type} (pipelines : String → Option Pipeline)
    (pipelineId : String) (pipeline : Pipeline) : String → Option Pipeline :=
  fun k => if k = pipelineId then some pipeline else pipelines k

/-! ## Helper lemmas -/

attribute [local semireducible] List.mergeSort List.merge

/-- A successful fallible filter yields a sublist of its input. -/
theorem filterE_sublist {α ε : Type} {p : α → Except ε Bool} :
    ∀ {l res : List α}, filterE p l = .ok res → res.Sublist l
  | [], res, h => by
    simp only [filterE] at h
    cases h
    exact List.Sublist.slnil
  | x :: xs, res, h => by
    simp only [filterE] at h
    cases hp : p x with
    | error e => rw [hp] at h; cases h
    | ok b =>
      rw [hp] at h
      cases hrest : filterE p xs with
      | error e => rw [hrest] at h; cases h
      | ok rest =>
        rw [hrest] at h
        cases h
        cases b with
        | true => simpa using List.Sublist.cons₂ x (filterE_sublist hrest)
        | false => simpa using List.Sublist.cons x (filterE_sublist hrest)

/-- The page window is a sublist of the category-filtered snapshot. -/
theorem currentItems_sublist (logs : List LogRecord) (page : ℕ) :
    (currentItems logs page).Sublist (logs.filter notEmbedding) := by
  unfold currentItems jsSlice
  exact (List.take_sublist _ _).trans (List.drop_sublist _ _)

/-- Sorting the page window only permutes it: membership is unchanged. -/
theorem mem_sortedItems {r : LogRecord} (logs : List LogRecord) (page : ℕ)
    (sf : Option String) (d : SortDirection) :
    r ∈ sortedItems logs page sf d ↔ r ∈ currentItems logs page := by
  cases sf with
  | none => simp [sortedItems]
  | some f =>
    by_cases hf : f = ""
    · simp [sortedItems, hf]
    · simp [sortedItems, hf, sortRuns, List.mem_mergeSort]

/-- Every rendered row comes from the category-filtered snapshot. -/
theorem mem_rendered_filter {logs : List LogRecord} {page : ℕ} {sf : Option String}
    {d : SortDirection} {q : String} {rows : List LogRecord} {r : LogRecord}
    (h : filteredAndSortedItems logs page sf d q = .ok rows) (hr : r ∈ rows) :
    r ∈ logs.filter notEmbedding := by
  have h1 : r ∈ sortedItems logs page sf d :=
    (filterE_sublist h).subset hr
  exact (currentItems_sublist logs page).subset ((mem_sortedItems logs page sf d).mp h1)

/-- C1.  The page slice of size `itemsPerPage = 10` is taken from the
category-filtered snapshot before the text filter runs: the rendered rows
are exactly the text filter applied to the already-sliced (and sorted)
page window, the window is (a sort permutation of) the ten-record slice of
the category-filtered snapshot, and the text filter only narrows that
window — it never re-paginates across the full text-filtered set. -/
theorem slice_before_filter (logs : List LogRecord) (q : String) (sf : Option String)
    (d : SortDirection) (page : ℕ) :
    filteredAndSortedItems logs page sf d q = filterE (keepsRecord q) (sortedItems logs page sf d)
    ∧ (sortedItems logs page sf d).Perm
        (jsSlice (page * itemsPerPage - itemsPerPage) (page * itemsPerPage) (logs.filter notEmbedding))
    ∧ (sortedItems logs page sf d).length ≤ itemsPerPage
    ∧ (∀ rows, filteredAndSortedItems logs page sf d q = .ok rows →
        rows.Sublist (sortedItems logs page sf d)) := by
  have hwin : (sortedItems logs page sf d).Perm (currentItems logs page) := by
    cases sf with
    | none => exact List.Perm.refl _
    | some f =>
      by_cases hf : f = ""
      · simp [sortedItems, hf]
      · simp only [sortedItems, hf, if_neg, sortRuns]
        exact List.mergeSort_perm _ _
  have hcur : currentItems logs page =
      jsSlice (page * itemsPerPage - itemsPerPage) (page * itemsPerPage) (logs.filter notEmbedding) := rfl
  refine ⟨rfl, hcur ▸ hwin, ?_, fun rows h => filterE_sublist h⟩
  have hlen : (currentItems logs page).length ≤ itemsPerPage := by
    unfold currentItems jsSlice
    have := List.length_take ((page * itemsPerPage) - (page * itemsPerPage - itemsPerPage))
      ((logs.filter notEmbedding).drop (page * itemsPerPage - itemsPerPage))
    refine le_trans (le_of_eq this) ?_
    refine le_trans (min_le_left _ _) ?_
    omega
  exact hwin.length_eq ▸ hlen

/-- Witness for C1 at a concrete snapshot: two qualifying records on page 1
with an empty text filter render both, and the rendered rows are a sublist
of the sorted page window. -/
theorem slice_before_filter_witness :
    filteredAndSortedItems [sampleSearch9, sampleSearch10] 1 (some ("timestamp")) .asc ("qa") =
      .ok [sampleSearch9]
    ∧ ([sampleSearch9] : List LogRecord).Sublist
        (sortedItems [sampleSearch9, sampleSearch10] 1 (some ("timestamp")) .asc) :=
  ⟨by decide, (slice_before_filter [sampleSearch9, sampleSearch10] ("qa")
      (some ("timestamp")) .asc 1).2.2.2 [sampleSearch9] (by decide)⟩

/-- C2.  Rendered rows never contain an `embedding` run, and the
`totalItems` used by the pagination control counts exactly the
non-`embedding` records. -/
theorem embedding_excluded (logs : List LogRecord) (q : String) (sf : Option String)
    (d : SortDirection) (page : ℕ) :
    (∀ rows, filteredAndSortedItems logs page sf d q = .ok rows →
      ∀ r ∈ rows, r.pipelineRunType ≠ .str ("embedding"))
    ∧ totalItems logs = logs.countP (fun r => decide (r.pipelineRunType ≠ .str ("embedding"))) := by
  constructor
  · intro rows h r hr
    have hm := mem_rendered_filter h hr
    have := (List.mem_filter.mp hm).2
    simpa [notEmbedding] using this
  · have hfun : notEmbedding = (fun r => !decide (r.pipelineRunType = JsValue.str ("embedding"))) := by
      funext r
      simp [notEmbedding]
    simp [totalItems, filteredLogs, List.countP_eq_length_filter, hfun]

/-- Witness for C2: an embedding record present in the snapshot is dropped
from the rendered rows, and the pagination count is 1. -/
theorem embedding_excluded_witness :
    filteredAndSortedItems [sampleSearch9, sampleEmbedding] 1 (some ("timestamp")) .asc ("") =
      .ok [sampleSearch9]
    ∧ (∀ r ∈ ([sampleSearch9] : List LogRecord), r.pipelineRunType ≠ .str ("embedding"))
    ∧ totalItems [sampleSearch9, sampleEmbedding] = 1 :=
  ⟨by decide,
   (embedding_excluded [sampleSearch9, sampleEmbedding] ("") (some ("timestamp")) .asc 1).1
     [sampleSearch9] (by decide),
   by decide⟩

/-- The comparator on two numeric score values reduces to the rational
comparison. -/
theorem cmpLogs_score_asc (a b : LogRecord) {qa qb : ℚ}
    (h1 : jsParseFloat a.score = .num qa) (h2 : jsParseFloat b.score = .num qb) :
    cmpLogs ("score") .asc a b = (if qa < qb then (-1 : ℤ) else if qb < qa then 1 else 0) := by
  simp [cmpLogs, h1, h2, jsLt, jsToPrimitive, jsToNumber]

/-- Descending order negates the ascending comparator. -/
theorem cmpLogs_desc_neg (f : String) (a b : LogRecord) :
    cmpLogs f .desc a b = - cmpLogs f .asc a b := by
  simp only [cmpLogs]
  split_ifs <;> simp_all

/-- C3.  Sorting by `score` compares the floating-point-parsed values:
whenever both scores parse, the comparator orders by the numeric value, so
score `"9"` sorts before `"10"` ascending even though the string order is
the reverse; every other sort field compares the raw field values with the
JS relational comparison, and `desc` inverts the comparator. -/
theorem score_sort_numeric :
    (∀ (a b : LogRecord) (qa qb : ℚ), jsParseFloat a.score = .num qa →
        jsParseFloat b.score = .num qb →
        (cmpLogs ("score") .asc a b = -1 ↔ qa < qb))
    ∧ (∀ a b : LogRecord, a.score = .str ("9") → b.score = .str ("10") →
        cmpLogs ("score") .asc a b = -1 ∧ cmpLogs ("score") .asc b a = 1)
    ∧ strLt ("10") ("9") = true
    ∧ (∀ (f : String) (a b : LogRecord), f ≠ ("score") →
        (cmpLogs f .asc a b = -1 ↔ jsLt (sortFieldValue f a) (sortFieldValue f b) = true))
    ∧ (∀ (f : String) (a b : LogRecord), cmpLogs f .desc a b = - cmpLogs f .asc a b) := by
  refine ⟨?_, ?_, by decide, ?_, fun f a b => cmpLogs_desc_neg f a b⟩
  · intro a b qa qb h1 h2
    rw [cmpLogs_score_asc a b h1 h2]
    rcases lt_trichotomy qa qb with h | h | h
    · simp [h]
    · simp [h, lt_irrefl]
    · simp [h, not_lt.mpr (le_of_lt h), asymm h]
  · intro a b h9 h10
    have p9 : jsParseFloat a.score = .num (mkRat 9 1) := by rw [h9]; decide
    have p10 : jsParseFloat b.score = .num (mkRat 10 1) := by rw [h10]; decide
    refine ⟨?_, ?_⟩
    · rw [cmpLogs_score_asc a b p9 p10]
      norm_num
    · rw [cmpLogs_score_asc b a p10 p9]
      norm_num
  · intro f a b hf
    have e : cmpLogs f .asc a b =
        (if jsLt (sortFieldValue f a) (sortFieldValue f b) then (-1 : ℤ)
         else if jsLt (sortFieldValue f b) (sortFieldValue f a) then 1 else 0) := by
      simp [cmpLogs, hf]
    rw [e]
    cases hj : jsLt (sortFieldValue f a) (sortFieldValue f b) with
    | true => simp [hj]
    | false =>
      simp only [hj, Bool.false_eq_true, if_false]
      split_ifs <;> simp

/-- Witness for C3: the two concrete records with scores `"9"` and `"10"`
order numerically under the score sort. -/
theorem score_sort_numeric_witness :
    sampleSearch9.score = .str ("9") ∧ sampleSearch10.score = .str ("10")
    ∧ cmpLogs ("score") .asc sampleSearch9 sampleSearch10 = -1
    ∧ cmpLogs ("score") .asc sampleSearch10 sampleSearch9 = 1 := by
  refine ⟨by decide, by decide, ?_⟩
  have h := score_sort_numeric.2.1 sampleSearch9 sampleSearch10 (by decide) (by decide)
  exact h

/-- Two comparison functions agreeing on all pairs drawn from the inputs
produce the same merge. -/
theorem merge_congr {α : Type} {le le' : α → α → Bool} :
    ∀ {xs ys : List α}, (∀ a ∈ xs, ∀ b ∈ ys, le a b = le' a b) →
      List.merge xs ys le = List.merge xs ys le'
  | [], ys, _ => by simp
  | x :: xs, [], _ => by simp
  | x :: xs, y :: ys, h => by
    rw [List.cons_merge_cons, List.cons_merge_cons]
    have hxy : le x y = le' x y := h x (by simp) y (by simp)
    rw [← hxy]
    cases hc : le x y with
    | true =>
      simp only [if_true]
      rw [merge_congr (fun a ha b hb => h a (by simp [ha]) b hb)]
    | false =>
      simp only [Bool.false_eq_true, if_false]
      rw [merge_congr (fun a ha b hb => h a ha b (by simp [hb]))]
termination_by xs ys => xs.length + ys.length

/-- Two comparison functions agreeing on all pairs drawn from the list
produce the same merge sort. -/
theorem mergeSort_congr {α : Type} {le le' : α → α → Bool} :
    ∀ (l : List α), (∀ a ∈ l, ∀ b ∈ l, le a b = le' a b) →
      List.mergeSort l le = List.mergeSort l le'
  | [], _ => by simp
  | [a], _ => by simp
  | a :: b :: xs, h => by
    have hl1 : (List.splitInTwo ⟨a :: b :: xs, rfl⟩).1.1.length < xs.length + 1 + 1 := by
      simp [List.splitInTwo_fst]
      omega
    have hl2 : (List.splitInTwo ⟨a :: b :: xs, rfl⟩).2.1.length < xs.length + 1 + 1 := by
      simp [List.splitInTwo_snd]
      omega
    have hfst : ∀ x ∈ (List.splitInTwo ⟨a :: b :: xs, rfl⟩).1.1, x ∈ a :: b :: xs := by
      intro x hx
      simp only [List.splitInTwo_fst] at hx
      exact (List.take_sublist _ _).subset hx
    have hsnd : ∀ x ∈ (List.splitInTwo ⟨a :: b :: xs, rfl⟩).2.1, x ∈ a :: b :: xs := by
      intro x hx
      simp only [List.splitInTwo_snd] at hx
      exact (List.drop_sublist _ _).subset hx
    rw [List.mergeSort, List.mergeSort]
    rw [mergeSort_congr _ (fun x hx y hy => h x (hfst x hx) y (hfst y hy)),
        mergeSort_congr _ (fun x hx y hy => h x (hsnd x hx) y (hsnd y hy))]
    exact merge_congr (fun x hx y hy =>
      h x (hfst x (List.mem_mergeSort.mp hx)) y (hsnd y (List.mem_mergeSort.mp hy)))
termination_by l => l.length

/-- `scoreKeyLe` is transitive. -/
theorem scoreKeyLe_trans : ∀ a b c : LogRecord,
    scoreKeyLe a b = true → scoreKeyLe b c = true → scoreKeyLe a c = true := by
  intro a b c hab hbc
  unfold scoreKeyLe at hab hbc ⊢
  cases hA : jsParseFloat a.score <;> cases hB : jsParseFloat b.score <;>
    cases hC : jsParseFloat c.score <;> simp_all
  exact le_trans hab hbc

/-- `scoreKeyLe` is total. -/
theorem scoreKeyLe_total : ∀ a b : LogRecord,
    (scoreKeyLe a b || scoreKeyLe b a) = true := by
  intro a b
  unfold scoreKeyLe
  cases hA : jsParseFloat a.score <;> cases hB : jsParseFloat b.score <;> simp_all
  exact le_total _ _

/-- C4 counterexample.  With records whose scores are `"5"`, `"x"` and
`"3"`, the `score` comparator rates the `"x"` record (whose score parses to
`NaN`) equal to the `"3"` record, yet the sort emits them in the opposite
relative order: an inconsistent comparator (possible for every sort field
via unparseable scores) defeats stability, so the sort is not stable for
every input sequence. -/
theorem sort_stable_cex :
    cmpLogs ("score") .asc cexScoreNaN cexScore3 = 0
    ∧ [cexScoreNaN, cexScore3].Sublist [cexScore5, cexScoreNaN, cexScore3]
    ∧ sortRuns ("score") .asc [cexScore5, cexScoreNaN, cexScore3] =
        [cexScore3, cexScore5, cexScoreNaN]
    ∧ ¬ [cexScoreNaN, cexScore3].Sublist
        (sortRuns ("score") .asc [cexScore5, cexScoreNaN, cexScore3]) :=
  ⟨by decide, by decide, by decide, by decide⟩

/-- C4 (amended).  The sort is stable whenever the comparator is consistent
on the input — witnessed by a transitive and total comparison agreeing with
the engine's on the list: any two records whose sort keys compare equal
stay in their input order, and this also persists across repeated sorts
(re-sorting preserves the pair for the same reason). -/
theorem sort_stable_consistent (f : String) (d : SortDirection) (l : List LogRecord)
    (le' : LogRecord → LogRecord → Bool)
    (htrans : ∀ a b c : LogRecord, le' a b = true → le' b c = true → le' a c = true)
    (htotal : ∀ a b : LogRecord, (le' a b || le' b a) = true)
    (hagree : ∀ a ∈ l, ∀ b ∈ l, jsSortLe f d a b = le' a b)
    {a b : LogRecord} (hab : cmpLogs f d a b = 0) (hsub : [a, b].Sublist l) :
    [a, b].Sublist (sortRuns f d l)
    ∧ sortRuns f d (sortRuns f d l) = sortRuns f d l := by
  have hal : a ∈ l := hsub.subset (by simp)
  have hbl : b ∈ l := hsub.subset (by simp)
  have hle : le' a b = true := by
    rw [← hagree a hal b hbl]
    simp [jsSortLe, hab]
  have htr : ∀ x y z : LogRecord, le' x y = true → le' y z = true → le' x z = true := htrans
  have hto : ∀ x y : LogRecord, (le' x y || le' y x) = true := htotal
  have e1 : sortRuns f d l = l.mergeSort le' := by
    rw [sortRuns, mergeSort_congr l (fun x hx y hy => hagree x hx y hy)]
  constructor
  · rw [e1]
    exact List.pair_sublist_mergeSort htrans htotal hle hsub
  · have e2 : sortRuns f d (sortRuns f d l) = (l.mergeSort le').mergeSort le' := by
      rw [e1, sortRuns]
      exact mergeSort_congr _ (fun x hx y hy =>
        hagree x (List.mem_mergeSort.mp hx) y (List.mem_mergeSort.mp hy))
    rw [e2, e1]
    exact List.mergeSort_of_sorted (List.sorted_mergeSort htr hto l)

/-- Witness for the amended C4: two distinct records with equal score `"9"`
keep their input order through the score sort, the agreement hypothesis
being discharged on the concrete two-record list. -/
theorem sort_stable_consistent_witness :
    cmpLogs ("score") .asc sampleSearch9 sampleSearch9b = 0
    ∧ ([sampleSearch9, sampleSearch9b].Sublist
        (sortRuns ("score") .asc [sampleSearch9, sampleSearch9b])
      ∧ sortRuns ("score") .asc (sortRuns ("score") .asc [sampleSearch9, sampleSearch9b]) =
          sortRuns ("score") .asc [sampleSearch9, sampleSearch9b]) :=
  ⟨by decide,
   sort_stable_consistent ("score") .asc [sampleSearch9, sampleSearch9b] scoreKeyLe
     scoreKeyLe_trans scoreKeyLe_total (by decide) (by decide) (by decide)⟩

/-- Characterisation of `Object.values(...).some(...)` on a value list all
of whose entries stringify: it succeeds, and returns `true` exactly when
some entry's lower-cased string form contains the lower-cased query. -/
theorem someMatches_ok {q : String} : ∀ {vs : List JsValue},
    (∀ v ∈ vs, isOkE (jsToString v) = true) →
    ∃ b : Bool, someMatches q vs = .ok b ∧
      ((b = true) ↔ ∃ v ∈ vs, ∃ s, jsToString v = .ok s ∧
        listContains (lowerChars q.toList) (lowerChars s.toList) = true)
  | [], _ => ⟨false, rfl, by simp⟩
  | v :: vs, h => by
    have hv := h v (by simp)
    cases hs : jsToString v with
    | error e =>
      rw [hs] at hv
      simp [isOkE] at hv
    | ok s =>
      cases hc : listContains (lowerChars q.toList) (lowerChars s.toList) with
      | true =>
        refine ⟨true, ?_, ?_⟩
        · simp only [someMatches, fieldMatches, hs, hc]
        · simp only [true_iff]
          exact ⟨v, by simp, s, hs, hc⟩
      | false =>
        obtain ⟨b, hb, hiff⟩ :=
          @someMatches_ok q vs (fun u hu => h u (List.mem_cons_of_mem v hu))
        refine ⟨b, ?_, ?_⟩
        · simp only [someMatches, fieldMatches, hs, hc]
          exact hb
        · rw [hiff]
          constructor
          · rintro ⟨u, hu, s', hs', hc'⟩
            exact ⟨u, List.mem_cons_of_mem v hu, s', hs', hc'⟩
          · rintro ⟨u, hu, s', hs', hc'⟩
            rcases List.mem_cons.mp hu with rfl | hu'
            · rw [hs] at hs'
              injection hs' with e
              subst e
              rw [hc] at hc'
              cases hc'
            · exact ⟨u, hu', s', hs', hc'⟩

/-- C5.  On a record all of whose field values stringify, the text filter
succeeds and keeps the record exactly when some field value, converted to a
string and lower-cased, contains the lower-cased filter text as a
substring; in particular the match is case-insensitive: `"SEARCH"` matches
a field value `"Search"`. -/
theorem filter_matches_any_field (q : String) (r : LogRecord)
    (h : ∀ v ∈ objectValues r, isOkE (jsToString v) = true) :
    (∃ b : Bool, keepsRecord q r = .ok b ∧
      ((b = true) ↔ ∃ v ∈ objectValues r, ∃ s, jsToString v = .ok s ∧
        listContains (lowerChars q.toList) (lowerChars s.toList) = true))
    ∧ fieldMatches ("SEARCH") (.str ("Search")) = .ok true := by
  refine ⟨?_, by decide⟩
  obtain ⟨b, hb, hiff⟩ := someMatches_ok h
  exact ⟨b, hb, hiff⟩

/-- Witness for C5 at a concrete record: every field of `sampleSearch9`
stringifies, and the filter decision for query `"SEARCH"` is characterised
by the theorem; moreover the record (with `method` field `"Search"`) is
kept. -/
theorem filter_matches_any_field_witness :
    (∀ v ∈ objectValues sampleSearch9, isOkE (jsToString v) = true)
    ∧ ((∃ b : Bool, keepsRecord ("SEARCH") sampleSearch9 = .ok b ∧
        ((b = true) ↔ ∃ v ∈ objectValues sampleSearch9, ∃ s, jsToString v = .ok s ∧
          listContains (lowerChars ("SEARCH").toList) (lowerChars s.toList) = true))
       ∧ fieldMatches ("SEARCH") (.str ("Search")) = .ok true)
    ∧ keepsRecord ("SEARCH") sampleSearch9 = .ok true :=
  ⟨by decide, filter_matches_any_field ("SEARCH") sampleSearch9 (by decide), by decide⟩

/-- C6.  With a session token available, the submission validations run in
source order — pipeline name, then GitHub URL, then the secret pairs — the
first failing check alone raises its blocking `alert`, and on any
validation failure no deploy request is issued and the form state is
untouched. -/
theorem deploy_validation_order (tk : String) (st : DeployFormState) (outcome : FetchOutcome) :
    (st.pipelineName = "" →
      handleSubmit (some tk) st outcome =
        { alerts := [("Please enter a pipeline name")], consoleErrors := [],
          deployRequests := 0, state := st, resetScheduled := false })
    ∧ (st.pipelineName ≠ "" → st.githubUrl = "" →
      handleSubmit (some tk) st outcome =
        { alerts := [("Please enter a GitHub URL")], consoleErrors := [],
          deployRequests := 0, state := st, resetScheduled := false })
    ∧ (st.pipelineName ≠ "" → st.githubUrl ≠ "" → st.secretPairs.any incompletePair = true →
      handleSubmit (some tk) st outcome =
        { alerts := [("Please enter a secret key and value")], consoleErrors := [],
          deployRequests := 0, state := st, resetScheduled := false }) := by
  refine ⟨?_, ?_, ?_⟩
  · intro h1
    simp [handleSubmit, h1]
  · intro h1 h2
    simp [handleSubmit, h1, h2]
  · intro h1 h2 h3
    simp [handleSubmit, h1, h2, h3]

/-- Witness for C6: submitting the concrete form with an empty pipeline
name (all other fields valid) alerts and issues no request, whatever the
network would have answered. -/
theorem deploy_validation_order_witness :
    emptyNameForm.pipelineName = ""
    ∧ handleSubmit (some ("tok")) emptyNameForm .success =
        { alerts := [("Please enter a pipeline name")], consoleErrors := [],
          deployRequests := 0, state := emptyNameForm, resetScheduled := false } :=
  ⟨by decide, (deploy_validation_order ("tok") emptyNameForm .success).1 (by decide)⟩

/-- C7.  When validation passes but the deploy request fails (non-success
status) or throws (network failure), the in-flight flag ends up cleared, a
single failure `alert` is surfaced, the form fields are left untouched for
correction, exactly one request was attempted (no retry), and no reset or
navigation is scheduled. -/
theorem deploy_failure_rollback (tk : String) (st : DeployFormState) (outcome : FetchOutcome)
    (hname : st.pipelineName ≠ "") (hurl : st.githubUrl ≠ "")
    (hpairs : st.secretPairs.any incompletePair = false)
    (hout : outcome = .httpFailure ∨ outcome = .thrown) :
    (handleSubmit (some tk) st outcome).state.isLoading = false
    ∧ (handleSubmit (some tk) st outcome).alerts.length = 1
    ∧ (handleSubmit (some tk) st outcome).state.pipelineName = st.pipelineName
    ∧ (handleSubmit (some tk) st outcome).state.githubUrl = st.githubUrl
    ∧ (handleSubmit (some tk) st outcome).state.secretPairs = st.secretPairs
    ∧ (handleSubmit (some tk) st outcome).deployRequests = 1
    ∧ (handleSubmit (some tk) st outcome).resetScheduled = false := by
  rcases hout with h | h <;> subst h <;> simp [handleSubmit, hname, hurl, hpairs]

/-- Witness for C7: the concrete valid form submitted against a 500
response keeps its fields, clears the flag, and alerts once. -/
theorem deploy_failure_rollback_witness :
    (validForm.pipelineName ≠ "" ∧ validForm.githubUrl ≠ ""
      ∧ validForm.secretPairs.any incompletePair = false)
    ∧ ((handleSubmit (some ("tok")) validForm .httpFailure).state.isLoading = false
      ∧ (handleSubmit (some ("tok")) validForm .httpFailure).alerts.length = 1
      ∧ (handleSubmit (some ("tok")) validForm .httpFailure).state.pipelineName = validForm.pipelineName
      ∧ (handleSubmit (some ("tok")) validForm .httpFailure).state.githubUrl = validForm.githubUrl
      ∧ (handleSubmit (some ("tok")) validForm .httpFailure).state.secretPairs = validForm.secretPairs
      ∧ (handleSubmit (some ("tok")) validForm .httpFailure).deployRequests = 1
      ∧ (handleSubmit (some ("tok")) validForm .httpFailure).resetScheduled = false) :=
  ⟨⟨by decide, by decide, by decide⟩,
   deploy_failure_rollback ("tok") validForm .httpFailure (by decide) (by decide) (by decide)
     (Or.inl rfl)⟩

/-- C8 (documenting the code bug).  When no session token is available the
handler only writes `Access token not found` to the console and returns:
the `alerts` list stays empty — no user-visible message is surfaced,
contrary to the specified behaviour — and no deploy request is sent. -/
theorem no_token_no_alert (st : DeployFormState) (outcome : FetchOutcome) :
    handleSubmit none st outcome =
      { alerts := [], consoleErrors := [("Access token not found")],
        deployRequests := 0, state := st, resetScheduled := false } := rfl

/-- C9.  `updatePipelines` maps the given id to the given pipeline and
leaves every other entry of the store exactly as it was. -/
theorem updatePipelines_frame {Pipeline : Type} (m : String → Option Pipeline)
    (p : String) (P : Pipeline) :
    updatePipelines m p P p = some P
    ∧ ∀ q : String, q ≠ p → updatePipelines m p P q = m q := by
  constructor
  · simp [updatePipelines]
  · intro q hq
    simp [updatePipelines, hq]

/-- Witness for C9 on a concrete store: the updated key reads back the new
value and an untouched key is unchanged. -/
theorem updatePipelines_frame_witness :
    updatePipelines (fun _ => (none : Option ℕ)) ("a") 5 ("a") = some 5
    ∧ (("b" : String) ≠ ("a")
      ∧ updatePipelines (fun _ => (none : Option ℕ)) ("a") 5 ("b") = none) :=
  ⟨(updatePipelines_frame (fun _ => none) ("a") 5).1,
   by decide,
   (updatePipelines_frame (fun _ => none) ("a") 5).2 ("b") (by decide)⟩

/-- C10.  The filter stringifies every field value with no null guard: it
is total exactly on records all of whose field values stringify, and on the
concrete record whose `searchQuery` is `null` (with earlier fields not
matching the query `"zzz"`) it raises a `TypeError` instead of returning a
decision. -/
theorem filter_null_typeError :
    (∀ (q : String) (r : LogRecord), (∀ v ∈ objectValues r, isOkE (jsToString v) = true) →
      isOkE (keepsRecord q r) = true)
    ∧ keepsRecord ("zzz") nullFieldRecord = .error .typeError := by
  constructor
  · intro q r h
    obtain ⟨b, hb, -⟩ := @someMatches_ok q (objectValues r) h
    simp [keepsRecord, hb, isOkE]
  · decide

/-- Witness for C10's totality half at a concrete null-free record. -/
theorem filter_null_typeError_witness :
    (∀ v ∈ objectValues sampleSearch10, isOkE (jsToString v) = true)
    ∧ isOkE (keepsRecord ("zzz") sampleSearch10) = true :=
  ⟨by decide, filter_null_typeError.1 ("zzz") sampleSearch10 (by decide)⟩

end R2R

